import Mathlib

/-!
# Verification of the panoptic2 detector/analyser pipeline

Shallow embedding of the Python sources under `src/` (motion_detector.py,
stream_manager.py, analyser/main.py, analyser/db.py) and proofs of the
behavioural claims about them.

Conventions of the embedding:
* Python floats that only ever hold dyadic/ratio values (timestamps,
  thresholds, percentages) are modelled as `ℚ`;
* Python `int` is modelled as `ℤ` (or `ℕ` where the source value is a count);
* numpy grayscale frames (`uint8`, shape `(height, width)`) are modelled as
  `List (List ℕ)` (a list of rows);
* fallible steps (numpy `reshape` raising `ValueError`, invalid crop) are
  modelled with `Option`;
* mutation is modelled by explicit state passing: a method returns the new
  object state together with its result.
-/

namespace Panoptic

/-! ## Grayscale frames (numpy arrays in `motion_detector.py`) -/

/-- A grayscale frame: list of rows, each row a list of pixel values. -/
abbrev Gray := List (List ℕ)

/-- Split a flat buffer into `h` rows of `w` pixels each
(`np.frombuffer(...).reshape((height, width))`). -/
def toRows (w : ℕ) : ℕ → List ℕ → Gray
  | 0, _ => []
  | h + 1, data => data.take w :: toRows w h (data.drop w)

/-- Embeds `np.frombuffer(frame_data, dtype=np.uint8).reshape((height, width))`:
succeeds exactly when the buffer holds `width * height` samples, otherwise
numpy raises `ValueError` (modelled as `none`). -/
def reshape (data : List ℕ) (w h : ℕ) : Option Gray :=
  if data.length = w * h then some (toRows w h data) else none

/-- numpy `frame.shape` as the pair `(rows, cols)`. -/
def Gray.shape (f : Gray) : ℕ × ℕ := (f.length, (f.headD []).length)

/-- numpy `frame.size`: total number of pixels. -/
def Gray.size (f : Gray) : ℕ := (f.map List.length).sum

/-- Slicing `frame[y1:y2, x1:x2]` for clamped indices. -/
def cropGray (f : Gray) (x1 y1 x2 y2 : ℕ) : Gray :=
  ((f.drop y1).take (y2 - y1)).map fun row => (row.drop x1).take (x2 - x1)

/-- Clamp a crop rectangle to the frame bounds, exactly as in
`MotionDetector.process_frame` (lines 163-167 of motion_detector.py). -/
def clampCrop (rect : ℤ × ℤ × ℤ × ℤ) (w h : ℕ) : ℤ × ℤ × ℤ × ℤ :=
  let x1 := max 0 (min rect.1 (w : ℤ))
  let y1 := max 0 (min rect.2.1 (h : ℤ))
  let x2 := max x1 (min rect.2.2.1 (w : ℤ))
  let y2 := max y1 (min rect.2.2.2 (h : ℤ))
  (x1, y1, x2, y2)

/-- Absolute difference `|a - b|` on pixel values (the source computes the absolute difference in
`int16`, which is exact for `uint8` inputs). -/
def pixDiff (a b : ℕ) : ℕ := max a b - min a b

/-- Embeds `np.sum(diff > self.pixel_threshold)`: number of pixel positions whose
absolute difference strictly exceeds the threshold.  The two frames have the
same shape whenever the source reaches this computation. -/
def countChanged (thr : ℤ) (f g : Gray) : ℕ :=
  (f.zip g).foldl
    (fun acc rp => acc + (rp.1.zip rp.2).countP fun p => thr < (pixDiff p.1 p.2 : ℤ)) 0

/-- Embeds `motion_percentage = (changed_pixels / total_pixels) * 100.0` with the
`total_pixels > 0` guard of line 193. -/
def motionPercentage (thr : ℤ) (frame prev : Gray) : ℚ :=
  let changed := countChanged thr frame prev
  let total := frame.size
  if 0 < total then (changed : ℚ) / (total : ℚ) * 100 else 0

/-! ## MotionDetector (motion_detector.py) -/

/-- The `MotionEvent` dataclass. -/
structure MotionEvent where
  stream_id : String
  segment_file : String
  motion_percentage : ℚ
  timestamp : ℚ
  deriving Repr, DecidableEq

/-- Python `int(q)` for a rational: truncation toward zero.  A `ℚ` is stored
as `num / den` with `den > 0`, so truncating division of the numerator by the
denominator is exactly Python's `int()` on the represented value. -/
def pyTrunc (q : ℚ) : ℤ := q.num.tdiv q.den

/-- Embeds `max(5, int(50 - (sensitivity * 0.5)))` — the pixel-threshold formula used
both in `MotionDetector.__init__` (line 85) and `update_config` (line 101).
For `sensitivity ≤ 100` the truncated value is nonnegative, so `int`
truncation coincides with the floor; the products `sensitivity * 0.5` are
dyadic, hence exact in the source's floating point. -/
def sensitivityThreshold (sensitivity : ℤ) : ℤ :=
  max 5 (pyTrunc ((50 : ℚ) - (sensitivity : ℚ) * (1 / 2)))

/-- The mutable state of a `MotionDetector` instance. -/
structure MotionDetector where
  stream_id : String
  pixel_threshold : ℤ
  area_threshold : ℚ
  cooldown_frames : ℕ
  crop_rect : Option (ℤ × ℤ × ℤ × ℤ)
  enabled : Bool
  sensitivity : ℤ
  previous_frame : Option Gray
  frames_since_motion : ℕ
  frame_count : ℕ
  deriving Repr, DecidableEq

/-- Embeds `MotionDetector.__init__`.  Note that the constructor always overwrites
the `pixel_threshold` argument with the sensitivity formula (line 85), and
arms the cooldown for an immediate first detection (line 89). -/
def MotionDetector.init (stream_id : String) (area_threshold : ℚ)
    (cooldown_frames : ℕ) (crop_rect : Option (ℤ × ℤ × ℤ × ℤ))
    (enabled : Bool) (sensitivity : ℤ) : MotionDetector where
  stream_id := stream_id
  pixel_threshold := sensitivityThreshold sensitivity
  area_threshold := area_threshold
  cooldown_frames := cooldown_frames
  crop_rect := crop_rect
  enabled := enabled
  sensitivity := sensitivity
  previous_frame := none
  frames_since_motion := cooldown_frames
  frame_count := 0

/-- A `config` dict passed to `MotionDetector.update_config`; `none` models
an absent key.  The `crop_rect` key, when present, itself carries an
`Optional` rectangle. -/
structure DetectorConfigUpdate where
  sensitivity : Option ℤ := none
  pixel_threshold : Option ℤ := none
  area_threshold : Option ℚ := none
  crop_rect : Option (Option (ℤ × ℤ × ℤ × ℤ)) := none
  enabled : Option Bool := none

/-- Embeds `MotionDetector.update_config` (lines 92-121): `sensitivity` takes
priority over a raw `pixel_threshold` (if/elif); a changed crop rect or
disabling the detector discards the stored previous frame. -/
def MotionDetector.update_config (d : MotionDetector) (c : DetectorConfigUpdate) :
    MotionDetector :=
  let d := match c.sensitivity with
    | some s => { d with sensitivity := s, pixel_threshold := sensitivityThreshold s }
    | none => match c.pixel_threshold with
      | some p => { d with pixel_threshold := p }
      | none => d
  let d := match c.area_threshold with
    | some a => { d with area_threshold := a }
    | none => d
  let d := match c.crop_rect with
    | some r => if d.crop_rect ≠ r then { d with crop_rect := r, previous_frame := none } else d
    | none => d
  match c.enabled with
  | some e =>
    if d.enabled ≠ e then
      if e then { d with enabled := e }
      else { d with enabled := e, previous_frame := none }
    else d
  | none => d

/-- Apply the configured crop to a reshaped frame (lines 160-174): clamp the
rectangle to the frame bounds and slice; a zero-area result makes the call
ignore the frame (`none`). -/
def applyCrop (crop : Option (ℤ × ℤ × ℤ × ℤ)) (f : Gray) : Option Gray :=
  match crop with
  | none => some f
  | some rect =>
    let s := Gray.shape f
    let c := clampCrop rect s.2 s.1
    if c.2.2.1 > c.1 ∧ c.2.2.2 > c.2.1 then
      some (cropGray f c.1.toNat c.2.1.toNat c.2.2.1.toNat c.2.2.2.toNat)
    else none

/-- The body of `process_frame` after the enabled check and the two counter
increments (lines 152-215), operating on the already-incremented state. -/
def MotionDetector.detectStep (d : MotionDetector) (frame_data : List ℕ)
    (width height : ℕ) (current_segment : String) (timestamp : ℚ) :
    MotionDetector × Option MotionEvent :=
  match reshape frame_data width height with
  | none => (d, none)
  | some frame0 =>
    match applyCrop d.crop_rect frame0 with
    | none => (d, none)
    | some frame =>
      match d.previous_frame with
      | none => ({ d with previous_frame := some frame }, none)
      | some prev =>
        if frame.shape ≠ prev.shape then
          ({ d with previous_frame := some frame }, none)
        else
          if d.area_threshold ≤ motionPercentage d.pixel_threshold frame prev ∧
              d.cooldown_frames ≤ d.frames_since_motion then
            ({ d with previous_frame := some frame, frames_since_motion := 0 },
             some ⟨d.stream_id, current_segment,
                   motionPercentage d.pixel_threshold frame prev, timestamp⟩)
          else ({ d with previous_frame := some frame }, none)

/-- Embeds `MotionDetector.process_frame` (lines 123-215). -/
def MotionDetector.process_frame (d : MotionDetector) (frame_data : List ℕ)
    (width height : ℕ) (current_segment : String) (timestamp : ℚ) :
    MotionDetector × Option MotionEvent :=
  if d.enabled then
    MotionDetector.detectStep
      { d with frame_count := d.frame_count + 1,
               frames_since_motion := d.frames_since_motion + 1 }
      frame_data width height current_segment timestamp
  else (d, none)

/-- Embeds `MotionDetector.reset`. -/
def MotionDetector.reset (d : MotionDetector) : MotionDetector :=
  { d with previous_frame := none, frames_since_motion := d.cooldown_frames,
           frame_count := 0 }

/-- One `process_frame` invocation: the raw buffer together with the claimed
dimensions and the metadata the pipeline passes along. -/
structure FrameIn where
  data : List ℕ
  width : ℕ
  height : ℕ
  segment : String
  timestamp : ℚ

/-- Feed a list of frames through one detector, recording for each frame
whether a `MotionEvent` was returned. -/
def runDetector : MotionDetector → List FrameIn → MotionDetector × List Bool
  | d, [] => (d, [])
  | d, f :: fs =>
    ((runDetector (d.process_frame f.data f.width f.height f.segment f.timestamp).1 fs).1,
     (d.process_frame f.data f.width f.height f.segment f.timestamp).2.isSome ::
       (runDetector (d.process_frame f.data f.width f.height f.segment f.timestamp).1 fs).2)

/-! ## StreamManager: segment history, recording sessions (stream_manager.py) -/

/-- The `ClosedSegment` dataclass. -/
structure ClosedSegment where
  path : String
  end_ts : ℚ
  deriving Repr, DecidableEq

/-- The character substitution of `StreamManager._stream_key`. -/
def streamKeyChar (c : Char) : Char := if c = '/' then '_' else c

/-- Embeds `StreamManager._stream_key`: `stream_id.replace("/", "_")`.  The pattern
is a single character, so Python's `str.replace` is the per-character
substitution. -/
def streamKey (s : String) : String := ⟨s.data.map streamKeyChar⟩

/-- Embeds `StreamManager._get_history_max_size`:
`max(5, (pre_roll // seg_dur) + 3)` — Python floor division on the
nonnegative configuration integers is `Nat` division. -/
def getHistoryMaxSize (pre_roll seg_dur : ℕ) : ℕ :=
  max 5 (pre_roll / seg_dur + 3)

/-- Embeds `collections.deque(maxlen=m).append x`: keep the last `m` elements of
`l ++ [x]`. -/
def ringAppend (maxlen : ℕ) (l : List α) (x : α) : List α :=
  (l ++ [x]).drop ((l ++ [x]).length - maxlen)

/-- Embeds `StreamManager._copy_segment_to_recording` (lines 177-229), with the
filesystem abstracted by two oracle booleans: `srcOk` (the source path exists
and is a file) and `copyOk` (the copy + atomic rename succeed).  The session's
copied set is a `List String` with set semantics.  Result:
`(new copied set, a destination file was created, a recordings row insert was issued)`. -/
def copySegment (copied : List String) (path : String) (srcOk copyOk : Bool) :
    List String × Bool × Bool :=
  if path ∈ copied then (copied, false, false)
  else if srcOk then
    if copyOk then (path :: copied, true, true)
    else (copied, false, false)
  else (copied, false, false)

/-- Embeds `StreamManager._copy_preroll_segments`, selection loop (lines 168-172):
collect, in history order, the segments whose `end_ts` is at or after the
cutoff. -/
def selectPreroll (history : List ClosedSegment) (cutoff : ℚ) : List ClosedSegment :=
  history.foldl (fun acc seg => if cutoff ≤ seg.end_ts then acc ++ [seg] else acc) []

/-- Embeds `StreamManager._copy_preroll_segments` (lines 162-175): copy each selected
segment in order.  `env` supplies the filesystem oracle per path.  Returns the
final copied set and the ordered list of segment paths handed to
`_copy_segment_to_recording`. -/
def copyPrerollSegments (copied : List String) (history : List ClosedSegment)
    (now pre_roll_seconds : ℚ) (env : String → Bool × Bool) :
    List String × List String :=
  (selectPreroll history (now - pre_roll_seconds)).foldl
    (fun acc seg =>
      ((copySegment acc.1 seg.path (env seg.path).1 (env seg.path).2).1,
       acc.2 ++ [seg.path]))
    (copied, [])

/-- Embeds `StreamManager._handle_segment_closed` (lines 231-249) for one stream:
append the closed segment to the ring, and if a session is active copy it.
Returns `(new history, new session, file copied, row inserted)`. -/
def handleSegmentClosed (history : List ClosedSegment) (maxSize : ℕ)
    (session : Option (List String)) (path : String) (end_ts : ℚ)
    (srcOk copyOk : Bool) :
    List ClosedSegment × Option (List String) × Bool × Bool :=
  match session with
  | none => (ringAppend maxSize history ⟨path, end_ts⟩, none, false, false)
  | some copied =>
    (ringAppend maxSize history ⟨path, end_ts⟩,
     some (copySegment copied path srcOk copyOk).1,
     (copySegment copied path srcOk copyOk).2.1,
     (copySegment copied path srcOk copyOk).2.2)

/-- A trace of `_copy_segment_to_recording` invocations against one session:
each entry is `(source path, srcOk, copyOk)`.  Returns the final copied set
and the multiset (in order) of paths for which a destination file was
created. -/
def runCopies : List String → List (String × Bool × Bool) → List String × List String
  | copied, [] => (copied, [])
  | copied, (p, s, k) :: rest =>
    ((runCopies (copySegment copied p s k).1 rest).1,
     if (copySegment copied p s k).2.1 then
       p :: (runCopies (copySegment copied p s k).1 rest).2
     else (runCopies (copySegment copied p s k).1 rest).2)

/-! ## StreamManager: session lifecycle and the SESSION log protocol

The log-relevant behaviour of `_handle_motion`, `_check_session_timeouts`,
the session-cleanup portion of `_update_streams`, and `stop`
(stream_manager.py).  Sessions here carry only `last_motion_ts`; the copied
set and the per-session segment count are modelled by `copySegment` /
`runCopies` above and are irrelevant to which `[SESSION]` lines appear and
for which stream. -/

/-- The `[SESSION]` log lines: `Started recording` / `Ended recording`. -/
inductive LogLine where
  | sessionStart (stream : String)
  | sessionEnd (stream : String)
  deriving Repr, DecidableEq

/-- Manager state: the streams with running pipelines, the active sessions
(stream id with `last_motion_ts`, at most one per stream), and the log so
far. -/
structure MgrState where
  pipelines : List String
  sessions : List (String × ℚ)
  log : List LogLine
  deriving Repr, DecidableEq

/-- Events driving the session engine. -/
inductive MgrEvent where
  /-- a `MotionEvent` for `stream` arriving at wallclock `now`
  (`_handle_motion`) -/
  | motion (stream : String) (now : ℚ)
  /-- one pass of `_check_session_timeouts` at wallclock `now` -/
  | tick (now : ℚ)
  /-- one `_update_streams` reconciliation whose discovered ready set is
  `ready` (all pipeline starts assumed to succeed) -/
  | reconcile (ready : List String)
  /-- `StreamManager.stop` -/
  | stop
  deriving Repr, DecidableEq

/-- Whether an event is a discovery reconciliation. -/
def MgrEvent.isReconcile : MgrEvent → Bool
  | .reconcile _ => true
  | _ => false

/-- Embeds `self._sessions.get(stream_id)`. -/
def lookupSession (sessions : List (String × ℚ)) (stream : String) : Option ℚ :=
  (sessions.find? fun p => p.1 = stream).map fun p => p.2

/-- Number of `SESSION_START` lines for a stream in a log. -/
def startCount (log : List LogLine) (s : String) : ℕ :=
  log.countP fun l => l = .sessionStart s

/-- Number of `SESSION_END` lines for a stream in a log. -/
def endCount (log : List LogLine) (s : String) : ℕ :=
  log.countP fun l => l = .sessionEnd s

/-- Number of active session entries for a stream. -/
def sessCount (sessions : List (String × ℚ)) (s : String) : ℕ :=
  sessions.countP fun p => p.1 = s

/-- One event step of the session engine.  `post_roll` is
`config.recording.post_roll_seconds`.

* `motion`: if no session is active for the stream, create one and print
  `SESSION_START` (`_start_session`, line 155); otherwise only refresh
  `last_motion_ts` (line 145).
* `tick`: end (printing `SESSION_END`, `_end_session` line 270) every session
  whose post-roll elapsed (lines 256-265).
* `reconcile`: for every stream whose pipeline exists but which is not ready,
  the session entry is deleted (lines 400-409) — note: without any
  `SESSION_END` line; pipelines are then reconciled to the ready set.
* `stop`: end every active session with a `SESSION_END` line (lines 588-592)
  and stop all pipelines. -/
def mgrStep (post_roll : ℚ) (st : MgrState) : MgrEvent → MgrState
  | .motion stream now =>
    match lookupSession st.sessions stream with
    | none =>
      { st with sessions := st.sessions ++ [(stream, now)],
                log := st.log ++ [.sessionStart stream] }
    | some _ =>
      { st with sessions := st.sessions.map fun p =>
          if p.1 = stream then (p.1, now) else p }
  | .tick now =>
    let ended := st.sessions.filter fun p => post_roll ≤ now - p.2
    { st with sessions := st.sessions.filter fun p => ¬ post_roll ≤ now - p.2,
              log := st.log ++ ended.map fun p => .sessionEnd p.1 }
  | .reconcile ready =>
    let removed := st.pipelines.filter fun s => s ∉ ready
    { st with pipelines := ready,
              sessions := st.sessions.filter fun p => p.1 ∉ removed }
  | .stop =>
    { st with sessions := [],
              pipelines := [],
              log := st.log ++ st.sessions.map fun p => .sessionEnd p.1 }

/-- Run the session engine over a list of events. -/
def runMgr (post_roll : ℚ) (st : MgrState) (evts : List MgrEvent) : MgrState :=
  evts.foldl (mgrStep post_roll) st

/-- The manager state at process start. -/
def initMgrState : MgrState := ⟨[], [], []⟩

/-! ## Analyser (analyser/main.py and analyser/db.py) -/

/-- One row of the `analysis` table as built by `db.insert_analysis`
(analyser/db.py lines 125-158), with that function's defaults. -/
structure AnalysisRow where
  recording_id : ℕ
  description : Option String := none
  danger : Bool := false
  danger_level : ℕ := 0
  danger_details : Option String := none
  raw_response : Option String := none
  error : Option String := none
  deriving Repr, DecidableEq

/-- The result of `json.loads` on the de-fenced model content when it parses
as a JSON object: the fields `process_recording` reads from it via
`data.get(...)`.  `danger_level` is the value the model returned for that
key (0 when absent, mirroring a `get` default). -/
structure ParsedAnalysis where
  description : Option String
  danger : Bool
  danger_level : ℕ
  danger_details : Option String
  deriving Repr, DecidableEq

/-- Embeds `process_recording` result handling (analyser/main.py lines 143-187),
abstracting the HTTP exchange to its observed status code and content and the
JSON parser to its outcome `parsed` (`none` = `json.JSONDecodeError` on the
de-fenced content).  Returns the list of `analysis` rows inserted by the
call, in order. -/
def processRecording (recording_id : ℕ) (status : ℕ) (content : String)
    (parsed : Option ParsedAnalysis) : List AnalysisRow :=
  if status ≠ 200 then
    [{ recording_id := recording_id,
       error := some ("vLLM API Error: " ++ toString status) }]
  else
    match parsed with
    | some data =>
      [{ recording_id := recording_id,
         description := data.description,
         danger := data.danger,
         danger_details := data.danger_details,
         raw_response := some content }]
    | none =>
      [{ recording_id := recording_id,
         raw_response := some content,
         error := some "json_parse_error" }]

/-! ## Spec-side definitions

Formalisations of the spec's own formulas (not of the source), used only to
compare the spec's words against the behaviour of the embedded code. -/

/-- The spec's history-ring capacity `max(5, ⌈pre_roll/segment_duration⌉ + 3)`
(spec §3, *ClosedSegment*); `(p + s - 1) / s` is `⌈p / s⌉` for `s > 0`. -/
def specHistoryCapacity (pre_roll seg_dur : ℕ) : ℕ :=
  max 5 ((pre_roll + seg_dur - 1) / seg_dur + 3)

/-- The spec's sensitivity formula `max(5, 50 − ⌊0.5·sensitivity⌋)`
(spec §4.1). -/
def specSensitivityThreshold (sensitivity : ℤ) : ℤ :=
  max 5 (50 - ⌊(sensitivity : ℚ) * (1 / 2)⌋)

/-! ## Concrete sample data for witnesses -/

/-- A concrete detector state: enabled, no crop, a stored 2×2 all-zero
previous frame, cooldown 2, five frames since the last event. -/
def witnessDetector : MotionDetector where
  stream_id := "cam"
  pixel_threshold := 25
  area_threshold := 1
  cooldown_frames := 2
  crop_rect := none
  enabled := true
  sensitivity := 50
  previous_frame := some [[0, 0], [0, 0]]
  frames_since_motion := 5
  frame_count := 7

/-! # Helper lemmas -/

/-- Python `int()` truncation agrees with the floor on nonnegative values. -/
theorem pyTrunc_eq_floor (q : ℚ) (h : 0 ≤ q) : pyTrunc q = ⌊q⌋ := by
  unfold pyTrunc
  rw [Rat.floor_def]
  exact Int.tdiv_eq_ediv (Rat.num_nonneg.mpr h) (Int.natCast_nonneg _)

/-- Closed form of the source's sensitivity → pixel-threshold map on the
documented range: `max(5, (100 − s) / 2)` with floor division. -/
theorem sensitivityThreshold_eq (s : ℤ) (h0 : 0 ≤ s) (h1 : s ≤ 100) :
    sensitivityThreshold s = max 5 ((100 - s) / 2) := by
  unfold sensitivityThreshold
  have hq : (50 : ℚ) - (s : ℚ) * (1 / 2) = ((100 - s : ℤ) : ℚ) / ((2 : ℕ) : ℚ) := by
    push_cast
    ring
  have hnn : (0 : ℚ) ≤ ((100 - s : ℤ) : ℚ) / ((2 : ℕ) : ℚ) := by
    apply div_nonneg
    · exact_mod_cast (by omega : (0 : ℤ) ≤ 100 - s)
    · norm_num
  rw [hq, pyTrunc_eq_floor _ hnn, Rat.floor_intCast_div_natCast]
  norm_num

/-! # Claim theorems -/

/-- Claim C6, counterexample: At `sensitivity = 1` the constructed detector's
`pixel_threshold` is `49` (the source truncates `50 - 0.5·s` as a whole),
while the claimed formula `max(5, 50 − ⌊0.5·sensitivity⌋)` gives `50`. -/
theorem sensitivity_threshold_counterexample :
    (MotionDetector.init "cam" 1 30 none true 1).pixel_threshold = 49 ∧
    specSensitivityThreshold 1 = 50 ∧ (49 : ℤ) ≠ 50 := by
  refine ⟨?_, ?_, by decide⟩
  · show sensitivityThreshold 1 = 49
    rw [sensitivityThreshold_eq 1 (by decide) (by decide)]
    decide
  · unfold specSensitivityThreshold
    have h1 : ((1 : ℤ) : ℚ) * (1 / 2) = ((1 : ℤ) : ℚ) / ((2 : ℕ) : ℚ) := by
      push_cast
      ring
    rw [h1, Rat.floor_intCast_div_natCast]
    decide

/-- Claim C6, amended: For every `sensitivity ∈ [0,100]`, the effective
`pixel_threshold` — at construction and after `update_config` with that
sensitivity — equals `max(5, 50 − ⌈sensitivity/2⌉)` (for `0 ≤ s` the integer
`(s+1)/2` is `⌈s/2⌉`): the source truncates the whole of `50 − 0.5·s`, i.e.
rounds the half up, not down as the claim stated. -/
theorem sensitivity_threshold_formula (s : ℤ) (h0 : 0 ≤ s) (h1 : s ≤ 100)
    (sid : String) (a : ℚ) (cd : ℕ) (cr : Option (ℤ × ℤ × ℤ × ℤ)) (en : Bool)
    (d : MotionDetector) :
    (MotionDetector.init sid a cd cr en s).pixel_threshold = max 5 (50 - (s + 1) / 2) ∧
    (d.update_config { sensitivity := some s }).pixel_threshold = max 5 (50 - (s + 1) / 2) := by
  have key : sensitivityThreshold s = max 5 (50 - (s + 1) / 2) := by
    rw [sensitivityThreshold_eq s h0 h1]
    have : (100 - s) / 2 = 50 - (s + 1) / 2 := by omega
    rw [this]
  constructor
  · exact key
  · simp only [MotionDetector.update_config]
    exact key

/-- Claim C6, witness: The amended formula at `sensitivity = 1`. -/
theorem sensitivity_threshold_formula_witness :
    (0 : ℤ) ≤ 1 ∧ (1 : ℤ) ≤ 100 ∧
    (MotionDetector.init "cam" 1 30 none true 1).pixel_threshold = max 5 (50 - (1 + 1) / 2) :=
  ⟨by decide, by decide,
   (sensitivity_threshold_formula 1 (by decide) (by decide) "cam" 1 30 none true
     witnessDetector).1⟩

/-- Claim C5, counterexample: With `pre_roll_seconds = 11` and
`segment_duration = 2` the source computes capacity
`max(5, 11 // 2 + 3) = 8` (floor division), while the claimed formula
`max(5, ⌈11/2⌉ + 3)` gives `9`. -/
theorem history_capacity_counterexample :
    getHistoryMaxSize 11 2 = 8 ∧ specHistoryCapacity 11 2 = 9 ∧
    getHistoryMaxSize 11 2 ≠ specHistoryCapacity 11 2 := by
  decide

/-- Claim C5, amended: For `segment_duration > 0` the per-stream ring has
capacity exactly `max(5, ⌊pre_roll / segment_duration⌋ + 3)` — floor, not
ceiling, division — and appending a closed segment to a full ring drops the
oldest entry while keeping the length at capacity. -/
theorem history_capacity_floor_and_eviction (p s : ℕ) (_hs : 0 < s)
    (l : List ClosedSegment) (x : ClosedSegment)
    (hl : l.length = getHistoryMaxSize p s) :
    getHistoryMaxSize p s = max 5 (p / s + 3) ∧
    ringAppend (getHistoryMaxSize p s) l x = l.tail ++ [x] ∧
    (ringAppend (getHistoryMaxSize p s) l x).length = getHistoryMaxSize p s := by
  have hpos : 0 < l.length := by
    rw [hl]
    unfold getHistoryMaxSize
    omega
  refine ⟨rfl, ?_, ?_⟩
  · unfold ringAppend
    have hdrop : (l ++ [x]).length - getHistoryMaxSize p s = 1 := by
      simp [hl]
    rw [hdrop, List.drop_append_of_le_length (by omega), List.drop_one]
  · unfold ringAppend
    simp [hl]

/-- Claim C5, witness: Eviction on a full ring for `pre_roll = 11`,
`segment_duration = 2` (capacity 8). -/
theorem history_capacity_floor_and_eviction_witness :
    0 < 2 ∧ (List.replicate 8 (ClosedSegment.mk "p" 0)).length = getHistoryMaxSize 11 2 ∧
    ringAppend (getHistoryMaxSize 11 2) (List.replicate 8 (ClosedSegment.mk "p" 0))
        (ClosedSegment.mk "q" 1) =
      (List.replicate 8 (ClosedSegment.mk "p" 0)).tail ++ [ClosedSegment.mk "q" 1] :=
  ⟨by decide, by decide,
   (history_capacity_floor_and_eviction 11 2 (by decide) _ _ (by decide)).2.1⟩

/-- Claim C3, counterexample: For a recording whose inference request returns
HTTP 503, the single inserted analysis row carries
`error = "vLLM API Error: 503"`, not the claimed `"inference_http_503"`. -/
theorem inference_error_string_counterexample :
    processRecording 7 503 "Service Unavailable" none =
      [{ recording_id := 7, error := some "vLLM API Error: 503" }] ∧
    some "vLLM API Error: 503" ≠ some "inference_http_503" := by
  constructor
  · rfl
  · decide

/-- Claim C3, amended: For every recording whose inference request returns an
HTTP status other than 2xx, the Analyser inserts exactly one analysis row,
whose `error` field equals `"vLLM API Error: <status>"` (the code actually
branches on `status ≠ 200`, which every non-2xx status satisfies) and whose
description is absent. -/
theorem non_ok_inserts_single_error_row (rid status : ℕ) (content : String)
    (parsed : Option ParsedAnalysis) (h : status < 200 ∨ 300 ≤ status) :
    processRecording rid status content parsed =
      [{ recording_id := rid, error := some ("vLLM API Error: " ++ toString status) }] := by
  have hne : status ≠ 200 := by omega
  simp [processRecording, hne]

/-- Claim C3, witness: A 503 after retries yields exactly the one error row. -/
theorem non_ok_inserts_single_error_row_witness :
    ((503 : ℕ) < 200 ∨ (300 : ℕ) ≤ 503) ∧
    processRecording 7 503 "Service Unavailable" none =
      [{ recording_id := 7, error := some ("vLLM API Error: " ++ toString 503) }] :=
  ⟨Or.inr (by decide),
   non_ok_inserts_single_error_row 7 503 "Service Unavailable" none (Or.inr (by decide))⟩

/-- Claim C4, code bug: Evaluation of the code at the failing input: the
model replies 2xx with a JSON body whose `danger_level` is `7`, yet the
inserted analysis row records `danger_level = 0` — `process_recording` never
passes the parsed `danger_level` to `insert_analysis`, so the column takes
the `insert_analysis` default `0` and the model's value is dropped. -/
theorem danger_level_not_persisted :
    processRecording 9 200 "raw model response with danger_level 7"
        (some { description := some "A person climbs the fence",
                danger := true, danger_level := 7,
                danger_details := some "intrusion" }) =
      [{ recording_id := 9,
         description := some "A person climbs the fence",
         danger := true,
         danger_level := 0,
         danger_details := some "intrusion",
         raw_response := some "raw model response with danger_level 7" }] ∧
    (0 : ℕ) ≠ 7 := by
  constructor
  · rfl
  · decide

/-- Claim C10: An enabled detector fed a frame whose byte count differs from
`width * height` returns no event and leaves the stored previous frame (and
everything except the two per-frame counters) unchanged; the `ValueError`
from `reshape` is caught, so the call is total. -/
theorem bad_frame_returns_none_keeps_prev (d : MotionDetector) (data : List ℕ)
    (w h : ℕ) (seg : String) (ts : ℚ) (hen : d.enabled = true)
    (hlen : data.length ≠ w * h) :
    d.process_frame data w h seg ts =
      ({ d with frame_count := d.frame_count + 1,
                frames_since_motion := d.frames_since_motion + 1 }, none) ∧
    (d.process_frame data w h seg ts).1.previous_frame = d.previous_frame := by
  have : d.process_frame data w h seg ts =
      ({ d with frame_count := d.frame_count + 1,
                frames_since_motion := d.frames_since_motion + 1 }, none) := by
    simp [MotionDetector.process_frame, MotionDetector.detectStep, reshape, hen, hlen]
  exact ⟨this, by rw [this]⟩

/-- Claim C10, witness: A 3-byte buffer declared as 2×2. -/
theorem bad_frame_returns_none_keeps_prev_witness :
    witnessDetector.enabled = true ∧ ([0, 1, 2] : List ℕ).length ≠ 2 * 2 ∧
    (witnessDetector.process_frame [0, 1, 2] 2 2 "seg" 0).1.previous_frame =
      witnessDetector.previous_frame :=
  ⟨rfl, by decide,
   (bad_frame_returns_none_keeps_prev witnessDetector [0, 1, 2] 2 2 "seg" 0 rfl
     (by decide)).2⟩

/-- The character substitution of `_stream_key` is injective away from
underscores. -/
theorem streamKeyChar_map_inj : ∀ (l₁ l₂ : List Char), '_' ∉ l₁ → '_' ∉ l₂ →
    l₁.map streamKeyChar = l₂.map streamKeyChar → l₁ = l₂ := by
  intro l₁
  induction l₁ with
  | nil =>
    intro l₂ _ _ hm
    cases l₂ with
    | nil => rfl
    | cons b t => simp at hm
  | cons a t ih =>
    intro l₂ h₁ h₂ hm
    cases l₂ with
    | nil => simp at hm
    | cons b t₂ =>
      simp only [List.map_cons, List.cons.injEq] at hm
      have ha : a ≠ '_' := fun h => h₁ (h ▸ List.mem_cons_self a t)
      have hb : b ≠ '_' := fun h => h₂ (h ▸ List.mem_cons_self b t₂)
      have hab : a = b := by
        have h1ab := hm.1
        by_cases hasl : a = '/'
        · subst hasl
          by_cases hbsl : b = '/'
          · rw [hbsl]
          · exfalso
            simp [streamKeyChar, hbsl] at h1ab
            exact hb h1ab.symm
        · by_cases hbsl : b = '/'
          · exfalso
            subst hbsl
            simp [streamKeyChar, hasl] at h1ab
            exact ha h1ab
          · simpa [streamKeyChar, hasl, hbsl] using h1ab
      refine hab ▸ congrArg (List.cons a) ?_
      exact ih t₂ (fun h => h₁ (List.mem_cons_of_mem a h))
        (fun h => h₂ (List.mem_cons_of_mem b h)) hm.2

/-- Claim C8, counterexample: The distinct stream ids `"a/b"` and `"a_b"` both
map to the stream key `"a_b"`, so the substitution is not injective on
arbitrary ids observed in one run. -/
theorem stream_key_collision_counterexample :
    streamKey "a/b" = streamKey "a_b" ∧ ("a/b" : String) ≠ "a_b" := by
  constructor
  · decide
  · decide

/-- Claim C8, amended: The map `stream_id ↦ stream_key` (replace each `'/'`
with `'_'`) is injective on stream ids that contain no `'_'` character — two
distinct such ids never collide; ids already containing `'_'` may collide
with slash-separated ids. -/
theorem stream_key_injective_on_underscore_free (s₁ s₂ : String)
    (h₁ : '_' ∉ s₁.data) (h₂ : '_' ∉ s₂.data)
    (hk : streamKey s₁ = streamKey s₂) : s₁ = s₂ := by
  unfold streamKey at hk
  have hdata : s₁.data.map streamKeyChar = s₂.data.map streamKeyChar := by
    injection hk
  exact String.ext (streamKeyChar_map_inj _ _ h₁ h₂ hdata)

/-- Claim C8, witness: The injectivity applied to the underscore-free id
`"live/cam1"`. -/
theorem stream_key_injective_on_underscore_free_witness :
    '_' ∉ ("live/cam1" : String).data ∧ ("live/cam1" : String) = "live/cam1" :=
  ⟨by decide,
   stream_key_injective_on_underscore_free "live/cam1" "live/cam1" (by decide) (by decide) rfl⟩

/-- Unrolling the selection loop of `_copy_preroll_segments`: the appended
accumulator is the filter of the history by the pre-roll window. -/
theorem selectPreroll_eq_filter_general (cutoff : ℚ) :
    ∀ (l : List ClosedSegment) (init : List ClosedSegment),
      l.foldl (fun acc seg => if cutoff ≤ seg.end_ts then acc ++ [seg] else acc) init =
        init ++ l.filter (fun seg => cutoff ≤ seg.end_ts) := by
  intro l
  induction l with
  | nil => simp
  | cons a t ih =>
    intro init
    by_cases h : cutoff ≤ a.end_ts
    · simp [h, ih]
    · simp [h, ih]

/-- The second component of the pre-roll copy fold lists exactly the paths of
the selected segments, in order. -/
theorem copyPreroll_attempts (env : String → Bool × Bool) :
    ∀ (sel : List ClosedSegment) (c : List String) (done : List String),
      (sel.foldl
        (fun acc seg =>
          ((copySegment acc.1 seg.path (env seg.path).1 (env seg.path).2).1,
           acc.2 ++ [seg.path]))
        (c, done)).2 = done ++ sel.map ClosedSegment.path := by
  intro sel
  induction sel with
  | nil => simp
  | cons a t ih =>
    intro c done
    simp [ih]

/-- Claim C9: When a motion event starts a session at time `now`, the pre-roll
copy selects exactly the closed segments of the history whose
`end_ts ≥ now − pre_roll_seconds`, preserving history (oldest-first) order;
segments strictly before the cutoff are not handed to the copy procedure, and
an empty history yields no copies and no error (the procedure is total). -/
theorem preroll_selects_exactly_window (history : List ClosedSegment)
    (copied : List String) (now pre_roll : ℚ) (env : String → Bool × Bool) :
    selectPreroll history (now - pre_roll) =
      history.filter (fun seg => now - pre_roll ≤ seg.end_ts) ∧
    (∀ seg, seg ∈ selectPreroll history (now - pre_roll) ↔
      seg ∈ history ∧ now - pre_roll ≤ seg.end_ts) ∧
    (copyPrerollSegments copied history now pre_roll env).2 =
      (history.filter (fun seg => now - pre_roll ≤ seg.end_ts)).map ClosedSegment.path ∧
    copyPrerollSegments copied [] now pre_roll env = (copied, []) := by
  have hsel : selectPreroll history (now - pre_roll) =
      history.filter (fun seg => now - pre_roll ≤ seg.end_ts) := by
    unfold selectPreroll
    simpa using selectPreroll_eq_filter_general (now - pre_roll) history []
  refine ⟨hsel, ?_, ?_, ?_⟩
  · intro seg
    rw [hsel]
    simp [List.mem_filter]
  · unfold copyPrerollSegments
    rw [hsel]
    simpa using copyPreroll_attempts env
      (history.filter (fun seg => now - pre_roll ≤ seg.end_ts)) copied []
  · rfl

/-- The copied set only ever grows. -/
theorem copySegment_mono {copied : List String} {q p : String} {s k : Bool}
    (h : p ∈ copied) : p ∈ (copySegment copied q s k).1 := by
  unfold copySegment
  split
  · exact h
  · split
    · split
      · exact List.mem_cons_of_mem q h
      · exact h
    · exact h

/-- Once a path is in the copied set, no later invocation in the trace copies
a file for it again. -/
theorem runCopies_count_zero_of_mem :
    ∀ (ops : List (String × Bool × Bool)) (copied : List String) (p : String),
      p ∈ copied → (runCopies copied ops).2.count p = 0 := by
  intro ops
  induction ops with
  | nil =>
    intro copied p _
    simp [runCopies]
  | cons op rest ih =>
    intro copied p hmem
    obtain ⟨q, s, k⟩ := op
    by_cases hqp : q = p
    · subst hqp
      have hskip : copySegment copied q s k = (copied, false, false) := by
        unfold copySegment
        simp [hmem]
      simp [runCopies, hskip, ih _ _ hmem]
    · have hmono : p ∈ (copySegment copied q s k).1 := copySegment_mono hmem
      have hz := ih _ _ hmono
      have hne : ¬ (p = q) := fun hpq => hqp hpq.symm
      cases hcc : (copySegment copied q s k).2.1 with
      | false => simpa [runCopies, hcc] using hz
      | true => simp [runCopies, hcc, List.count_cons, hne, hz]

/-- Over any trace of copy invocations against one session, each source path
is successfully copied at most once. -/
theorem runCopies_count_le_one :
    ∀ (ops : List (String × Bool × Bool)) (copied : List String) (p : String),
      (runCopies copied ops).2.count p ≤ 1 := by
  intro ops
  induction ops with
  | nil =>
    intro copied p
    simp [runCopies]
  | cons op rest ih =>
    intro copied p
    obtain ⟨q, s, k⟩ := op
    cases hcc : (copySegment copied q s k).2.1 with
    | false => simpa [runCopies, hcc] using ih (copySegment copied q s k).1 p
    | true =>
      by_cases hqp : q = p
      · subst hqp
        -- a file was copied for q in this step, so q is now in the copied set
        have hadd : q ∈ (copySegment copied q s k).1 := by
          unfold copySegment at hcc ⊢
          split at hcc
          · simp at hcc
          · split at hcc
            · split at hcc
              · simp [*]
              · simp at hcc
            · simp at hcc
        have hz := runCopies_count_zero_of_mem rest _ q hadd
        simp [runCopies, hcc, List.count_cons_self, hz]
      · have hne : ¬ (p = q) := fun hpq => hqp hpq.symm
        simpa [runCopies, hcc, List.count_cons, hne] using
          ih (copySegment copied q s k).1 p

/-- Claim C2: Copying a segment into a session is idempotent: when the source
path is already in the session's copied set, `_copy_segment_to_recording`
copies no file, inserts no recordings row and leaves the copied set
unchanged; `_handle_segment_closed` on such a path only appends to the
history ring; and along any trace of copy invocations every source path is
successfully copied at most once. -/
theorem segment_copy_idempotent :
    (∀ (copied : List String) (path : String) (srcOk copyOk : Bool),
      path ∈ copied → copySegment copied path srcOk copyOk = (copied, false, false)) ∧
    (∀ (history : List ClosedSegment) (maxSize : ℕ) (copied : List String)
      (path : String) (end_ts : ℚ) (srcOk copyOk : Bool), path ∈ copied →
      handleSegmentClosed history maxSize (some copied) path end_ts srcOk copyOk =
        (ringAppend maxSize history ⟨path, end_ts⟩, some copied, false, false)) ∧
    (∀ (ops : List (String × Bool × Bool)) (copied : List String) (p : String),
      (runCopies copied ops).2.count p ≤ 1) := by
  have hskip : ∀ (copied : List String) (path : String) (srcOk copyOk : Bool),
      path ∈ copied → copySegment copied path srcOk copyOk = (copied, false, false) := by
    intro copied path srcOk copyOk h
    unfold copySegment
    simp [h]
  refine ⟨hskip, ?_, runCopies_count_le_one⟩
  intro history maxSize copied path end_ts srcOk copyOk h
  simp only [handleSegmentClosed]
  rw [hskip copied path srcOk copyOk h]

/-- Claim C2, witness: Re-copying an already-copied path is a no-op. -/
theorem segment_copy_idempotent_witness :
    ("seg1.ts" ∈ ["seg1.ts", "seg0.ts"]) ∧
    copySegment ["seg1.ts", "seg0.ts"] "seg1.ts" true true =
      (["seg1.ts", "seg0.ts"], false, false) :=
  ⟨by decide,
   segment_copy_idempotent.1 ["seg1.ts", "seg0.ts"] "seg1.ts" true true (by decide)⟩

/-- Splitting a `countP` along a second predicate. -/
theorem countP_split (l : List α) (p q : α → Bool) :
    l.countP p = (l.filter q).countP p + (l.filter fun a => !q a).countP p := by
  induction l with
  | nil => simp
  | cons a t ih =>
    cases hq : q a <;> cases hp : p a <;>
      simp [List.countP_cons, hq, hp, List.filter_cons, ih] <;> omega

/-- One non-reconcile step of the session engine preserves the balance
`#SESSION_START = #SESSION_END + #active sessions` for every stream. -/
theorem mgrStep_inv (post_roll : ℚ) (st : MgrState) (e : MgrEvent) (s : String)
    (hre : e.isReconcile = false)
    (hinv : startCount st.log s = endCount st.log s + sessCount st.sessions s) :
    startCount (mgrStep post_roll st e).log s
      = endCount (mgrStep post_roll st e).log s
        + sessCount (mgrStep post_roll st e).sessions s := by
  unfold startCount endCount sessCount at hinv ⊢
  cases e with
  | motion stream now =>
    cases hls : lookupSession st.sessions stream with
    | none =>
      simp only [mgrStep, hls]
      by_cases hss : stream = s
      · subst hss
        simp only [List.countP_append, List.countP_cons, List.countP_nil]
        simp [hinv]
        omega
      · simp only [List.countP_append, List.countP_cons, List.countP_nil]
        simp [hinv, hss, Ne.symm hss]
    | some ts =>
      simp only [mgrStep, hls]
      have hmap : List.countP (fun p => decide (p.1 = s))
          (st.sessions.map fun p => if p.1 = stream then (p.1, now) else p)
          = List.countP (fun p => decide (p.1 = s)) st.sessions := by
        rw [List.countP_map]
        apply List.countP_congr
        intro p _
        by_cases hp : p.1 = stream <;> simp [hp, Function.comp]
      rw [hmap]
      exact hinv
  | tick now =>
    have hsplit := countP_split st.sessions
      (fun p => decide (p.1 = s)) (fun p => decide (post_roll ≤ now - p.2))
    have hmap : (List.countP (fun l => l = LogLine.sessionEnd s)
        ((st.sessions.filter fun p => decide (post_roll ≤ now - p.2)).map
          fun p => LogLine.sessionEnd p.1))
        = (st.sessions.filter fun p => decide (post_roll ≤ now - p.2)).countP
            (fun p => decide (p.1 = s)) := by
      rw [List.countP_map]
      apply List.countP_congr
      intro p _
      simp [Function.comp]
    have hmaps : (List.countP (fun l => l = LogLine.sessionStart s)
        ((st.sessions.filter fun p => decide (post_roll ≤ now - p.2)).map
          fun p => LogLine.sessionEnd p.1)) = 0 := by
      rw [List.countP_map]
      apply List.countP_eq_zero.mpr
      intro p _
      simp [Function.comp]
    have hneg : (st.sessions.filter fun p => ¬post_roll ≤ now - p.2)
        = st.sessions.filter fun p => !decide (post_roll ≤ now - p.2) := by
      apply List.filter_congr
      intro p _
      rw [← decide_not]
    simp only [mgrStep, List.countP_append, hmap, hmaps]
    rw [hneg]
    omega
  | reconcile ready => simp [MgrEvent.isReconcile] at hre
  | stop =>
    have hmap : (List.countP (fun l => l = LogLine.sessionEnd s)
        (st.sessions.map fun p => LogLine.sessionEnd p.1))
        = st.sessions.countP (fun p => decide (p.1 = s)) := by
      rw [List.countP_map]
      apply List.countP_congr
      intro p _
      simp [Function.comp]
    have hmaps : (List.countP (fun l => l = LogLine.sessionStart s)
        (st.sessions.map fun p => LogLine.sessionEnd p.1)) = 0 := by
      rw [List.countP_map]
      apply List.countP_eq_zero.mpr
      intro p _
      simp [Function.comp]
    simp only [mgrStep, List.countP_append, hmap, hmaps, List.countP_nil]
    omega

/-- The balance invariant holds after any run of non-reconcile events. -/
theorem runMgr_inv (post_roll : ℚ) :
    ∀ (evts : List MgrEvent) (st : MgrState) (s : String),
      (∀ e ∈ evts, e.isReconcile = false) →
      startCount st.log s = endCount st.log s + sessCount st.sessions s →
      startCount (runMgr post_roll st evts).log s
        = endCount (runMgr post_roll st evts).log s
          + sessCount (runMgr post_roll st evts).sessions s := by
  intro evts
  induction evts with
  | nil =>
    intro st s _ hinv
    simpa [runMgr] using hinv
  | cons e rest ih =>
    intro st s hre hinv
    have hstep := mgrStep_inv post_roll st e s (hre e (List.mem_cons_self e rest)) hinv
    have hrest : ∀ e' ∈ rest, e'.isReconcile = false :=
      fun e' he' => hre e' (List.mem_cons_of_mem e he')
    simpa [runMgr] using ih (mgrStep post_roll st e) s hrest hstep

/-- Claim C7, counterexample: A session started by motion on stream `"a"` and
then dropped because `"a"` left the ready set during reconciliation produces
a `SESSION_START` line with no matching `SESSION_END`, even though the run
ends with a clean `stop`: the reconciliation path deletes the session entry
without calling `_end_session`. -/
theorem session_end_missing_counterexample :
    (runMgr 5 initMgrState
      [.reconcile ["a"], .motion "a" 0, .reconcile [], .stop]).log
        = [LogLine.sessionStart "a"] ∧
    startCount (runMgr 5 initMgrState
      [.reconcile ["a"], .motion "a" 0, .reconcile [], .stop]).log "a" = 1 ∧
    endCount (runMgr 5 initMgrState
      [.reconcile ["a"], .motion "a" 0, .reconcile [], .stop]).log "a" = 0 := by
  refine ⟨?_, ?_, ?_⟩ <;> decide

/-- Claim C7, amended: In every execution that does not end in a process crash
and in which no reconciliation occurs (sessions end only by post-roll timeout
or at shutdown), every `SESSION_START` line is matched by a `SESSION_END`
line for the same stream once the run finishes with `stop`; a session whose
stream leaves the ready set during reconciliation is instead dropped with no
`SESSION_END` line. -/
theorem session_start_end_balanced (post_roll : ℚ) (evts : List MgrEvent)
    (s : String) (hre : ∀ e ∈ evts, e.isReconcile = false) :
    startCount (runMgr post_roll initMgrState (evts ++ [.stop])).log s
      = endCount (runMgr post_roll initMgrState (evts ++ [.stop])).log s := by
  have hre' : ∀ e ∈ evts ++ [MgrEvent.stop], e.isReconcile = false := by
    intro e he
    rcases List.mem_append.mp he with h | h
    · exact hre e h
    · simp only [List.mem_singleton] at h
      subst h
      rfl
  have hinv := runMgr_inv post_roll (evts ++ [.stop]) initMgrState s hre'
    (by simp [startCount, endCount, sessCount, initMgrState])
  have hfin : (runMgr post_roll initMgrState (evts ++ [.stop])).sessions = [] := by
    unfold runMgr
    rw [List.foldl_append]
    simp [mgrStep]
  rw [hfin] at hinv
  simpa [sessCount] using hinv

/-- Claim C7, witness: A motion-started session for `"a"` ended at shutdown:
one `SESSION_START`, one `SESSION_END`. -/
theorem session_start_end_balanced_witness :
    (∀ e ∈ [MgrEvent.motion "a" 0], e.isReconcile = false) ∧
    startCount (runMgr 5 initMgrState ([MgrEvent.motion "a" 0] ++ [.stop])).log "a"
      = endCount (runMgr 5 initMgrState ([MgrEvent.motion "a" 0] ++ [.stop])).log "a" :=
  ⟨by decide, session_start_end_balanced 5 [MgrEvent.motion "a" 0] "a" (by decide)⟩

/-- Lemma: `detectStep` never touches `enabled` or `cooldown_frames`. -/
theorem detectStep_keeps_config (d : MotionDetector) (data : List ℕ) (w h : ℕ)
    (seg : String) (ts : ℚ) :
    (d.detectStep data w h seg ts).1.enabled = d.enabled ∧
    (d.detectStep data w h seg ts).1.cooldown_frames = d.cooldown_frames := by
  unfold MotionDetector.detectStep
  repeat' split
  all_goals simp

/-- The frames-since-motion counter after `detectStep`: reset to `0` exactly
on emission, untouched otherwise; emission requires the cooldown to have
elapsed. -/
theorem detectStep_fsm (d : MotionDetector) (data : List ℕ) (w h : ℕ)
    (seg : String) (ts : ℚ) :
    ((d.detectStep data w h seg ts).2.isSome = true →
      (d.detectStep data w h seg ts).1.frames_since_motion = 0 ∧
      d.cooldown_frames ≤ d.frames_since_motion) ∧
    ((d.detectStep data w h seg ts).2 = none →
      (d.detectStep data w h seg ts).1.frames_since_motion = d.frames_since_motion) := by
  unfold MotionDetector.detectStep
  repeat' split
  all_goals simp_all

/-- Lemma: `process_frame` never touches `enabled` or `cooldown_frames`. -/
theorem process_frame_keeps_config (d : MotionDetector) (data : List ℕ) (w h : ℕ)
    (seg : String) (ts : ℚ) :
    (d.process_frame data w h seg ts).1.enabled = d.enabled ∧
    (d.process_frame data w h seg ts).1.cooldown_frames = d.cooldown_frames := by
  unfold MotionDetector.process_frame
  split
  · constructor
    · rw [(detectStep_keeps_config _ _ _ _ _ _).1]
    · rw [(detectStep_keeps_config _ _ _ _ _ _).2]
  · exact ⟨rfl, rfl⟩

/-- On an enabled detector, a call that emits an event needs
`cooldown ≤ fsm + 1` (the counter is incremented before the check), and a
call that does not emit leaves the incremented counter in place. -/
theorem process_frame_fsm (d : MotionDetector) (data : List ℕ) (w h : ℕ)
    (seg : String) (ts : ℚ) (hen : d.enabled = true) :
    ((d.process_frame data w h seg ts).2.isSome = true →
      (d.process_frame data w h seg ts).1.frames_since_motion = 0 ∧
      d.cooldown_frames ≤ d.frames_since_motion + 1) ∧
    ((d.process_frame data w h seg ts).2 = none →
      (d.process_frame data w h seg ts).1.frames_since_motion
        = d.frames_since_motion + 1) := by
  unfold MotionDetector.process_frame
  rw [hen]
  simp only [if_true]
  constructor
  · intro hemit
    have := (detectStep_fsm _ data w h seg ts).1 hemit
    exact ⟨this.1, this.2⟩
  · intro hnone
    exact (detectStep_fsm _ data w h seg ts).2 hnone

/-- Counting from a state whose counter is `n`, if the first `j` processed
frames emit nothing and frame `j` emits, then `cooldown ≤ n + j + 1`. -/
theorem runDetector_gap : ∀ (fs : List FrameIn) (d : MotionDetector) (j : ℕ),
    d.enabled = true →
    (∀ i, i < j → ((runDetector d fs).2)[i]? = some false) →
    ((runDetector d fs).2)[j]? = some true →
    d.cooldown_frames ≤ d.frames_since_motion + j + 1 := by
  intro fs
  induction fs with
  | nil =>
    intro d j _ _ hj
    simp [runDetector] at hj
  | cons f rest ih =>
    intro d j hen hpre hj
    cases j with
    | zero =>
      have hb : (d.process_frame f.data f.width f.height f.segment f.timestamp).2.isSome
          = true := by
        simpa [runDetector] using hj
      have := ((process_frame_fsm d f.data f.width f.height f.segment f.timestamp hen).1 hb).2
      omega
    | succ k =>
      have hb : (d.process_frame f.data f.width f.height f.segment f.timestamp).2.isSome
          = false := by
        have h0 := hpre 0 (Nat.succ_pos k)
        simpa [runDetector] using h0
      have hnone : (d.process_frame f.data f.width f.height f.segment f.timestamp).2
          = none := Option.not_isSome_iff_eq_none.mp (by simp [hb])
      have hfsm := (process_frame_fsm d f.data f.width f.height f.segment f.timestamp hen).2
        hnone
      have hen' : (d.process_frame f.data f.width f.height f.segment f.timestamp).1.enabled
          = true := by
        rw [(process_frame_keeps_config d f.data f.width f.height f.segment f.timestamp).1]
        exact hen
      have hcd := (process_frame_keeps_config d f.data f.width f.height f.segment
        f.timestamp).2
      have hpre' : ∀ i, i < k →
          ((runDetector (d.process_frame f.data f.width f.height f.segment
            f.timestamp).1 rest).2)[i]? = some false := by
        intro i hi
        have := hpre (i + 1) (Nat.succ_lt_succ hi)
        simpa [runDetector] using this
      have hj' : ((runDetector (d.process_frame f.data f.width f.height f.segment
          f.timestamp).1 rest).2)[k]? = some true := by
        simpa [runDetector] using hj
      have := ih _ k hen' hpre' hj'
      rw [hcd, hfsm] at this
      omega

/-- Claim C1: For a well-formed frame after the first on an enabled detector
(buffer of `width*height` bytes, valid non-zero-area crop, stored previous
frame of the same shape): a `MotionEvent` is returned iff the computed motion
percentage reaches `area_threshold` and the frames-since-last-event counter
(which counts the current frame: the source increments it before the check)
reaches `cooldown_frames`; on emission the counter is reset to `0`; and in
any run starting right after an emission (`counter = 0`), the next emission
can only happen at the `j`-th subsequent frame with `cooldown ≤ j + 1`, i.e.
at least `cooldown_frames` frames are processed between consecutive events. -/
theorem motion_event_iff_thresholds_and_cooldown (d : MotionDetector)
    (data : List ℕ) (w h : ℕ) (seg : String) (ts : ℚ) (frame0 frame p : Gray)
    (hen : d.enabled = true)
    (hre : reshape data w h = some frame0)
    (hcrop : applyCrop d.crop_rect frame0 = some frame)
    (hprev : d.previous_frame = some p)
    (hshape : frame.shape = p.shape) :
    ((d.process_frame data w h seg ts).2.isSome = true ↔
      (d.area_threshold ≤ motionPercentage d.pixel_threshold frame p ∧
       d.cooldown_frames ≤ d.frames_since_motion + 1)) ∧
    ((d.process_frame data w h seg ts).2.isSome = true →
      (d.process_frame data w h seg ts).1.frames_since_motion = 0) ∧
    (∀ (d' : MotionDetector) (fs : List FrameIn) (j : ℕ),
      d'.enabled = true → d'.frames_since_motion = 0 →
      (∀ i, i < j → ((runDetector d' fs).2)[i]? = some false) →
      ((runDetector d' fs).2)[j]? = some true →
      d'.cooldown_frames ≤ j + 1) := by
  refine ⟨?_, ?_, ?_⟩
  · by_cases hc : d.area_threshold ≤ motionPercentage d.pixel_threshold frame p ∧
        d.cooldown_frames ≤ d.frames_since_motion + 1
    · simp [MotionDetector.process_frame, MotionDetector.detectStep, hen, hre, hcrop,
        hprev, hshape, hc]
    · simp [MotionDetector.process_frame, MotionDetector.detectStep, hen, hre, hcrop,
        hprev, hshape, hc]
  · intro hemit
    exact ((process_frame_fsm d data w h seg ts hen).1 hemit).1
  · intro d' fs j hen' hzero hpre hj
    have := runDetector_gap fs d' j hen' hpre hj
    rw [hzero] at this
    simpa using this

/-- Claim C1, witness: A fully-changed 2×2 frame against the stored all-zero
previous frame on the sample detector (threshold 25, area 1 %, cooldown 2,
counter at 5). -/
theorem motion_event_iff_thresholds_and_cooldown_witness :
    witnessDetector.enabled = true ∧
    reshape [255, 255, 255, 255] 2 2 = some [[255, 255], [255, 255]] ∧
    applyCrop witnessDetector.crop_rect [[255, 255], [255, 255]]
      = some [[255, 255], [255, 255]] ∧
    witnessDetector.previous_frame = some [[0, 0], [0, 0]] ∧
    ((witnessDetector.process_frame [255, 255, 255, 255] 2 2 "seg" 0).2.isSome = true ↔
      (witnessDetector.area_threshold ≤
        motionPercentage witnessDetector.pixel_threshold [[255, 255], [255, 255]]
          [[0, 0], [0, 0]] ∧
       witnessDetector.cooldown_frames ≤ witnessDetector.frames_since_motion + 1)) :=
  ⟨rfl, by decide, by decide, rfl,
   (motion_event_iff_thresholds_and_cooldown witnessDetector [255, 255, 255, 255] 2 2
     "seg" 0 [[255, 255], [255, 255]] [[255, 255], [255, 255]] [[0, 0], [0, 0]]
     rfl (by decide) (by decide) rfl (by decide)).1⟩

end Panoptic
